import Mathlib

/-!
# Verification of the `asyncwrap` proc-macro transformation engine

Shallow embedding of `asyncwrap-macros/src/lib.rs` (the transformation
engine) and the relevant part of `asyncwrap/src/lib.rs` (the runtime
`AsyncWrapError` / `AsyncWrapResult` contract), followed by theorems about
the embedded definitions.

The embedding keeps the source's names where Lean allows it:
`is_self_by_ref`, `is_result_type`, `validate_async_wrap_method`,
`extract_method_info`, `generate_async_method`, `blocking_impl`, and the
`Parse` impl for `BlockingImplArgs`.
-/

namespace Asyncwrap

/-- `enum Strategy` from `asyncwrap-macros/src/lib.rs`:
`SpawnBlocking` carries the `#[default]` mark. -/
inductive Strategy where
  | SpawnBlocking
  | BlockInPlace
deriving DecidableEq

instance : Inhabited Strategy := ⟨Strategy.SpawnBlocking⟩

/-- A Rust type (`syn::Type`), as far as the macro inspects it: a path type
keeps the identifiers of its segments together with the generic arguments of
its final segment (the only parts the macro and the runtime alias ever look
at); the unit type `()` appears because the macro synthesizes it; every
other type is an uninterpreted token sequence identified by a tag. -/
inductive Ty where
  | path (segs : List String) (args : List Ty)
  | unit
  | other (tag : Nat)

mutual
def Ty.decEq : (a b : Ty) → Decidable (a = b)
  | Ty.unit, Ty.unit => isTrue rfl
  | Ty.other t, Ty.other u =>
    if h : t = u then isTrue (congrArg Ty.other h)
    else isFalse (fun hh => h (Ty.other.inj hh))
  | Ty.path s1 a1, Ty.path s2 a2 =>
    if hs : s1 = s2 then
      match Ty.decEqList a1 a2 with
      | isTrue ha => isTrue (by rw [hs, ha])
      | isFalse ha => isFalse (fun hh => ha (Ty.path.inj hh).2)
    else isFalse (fun hh => hs (Ty.path.inj hh).1)
  | Ty.unit, Ty.path _ _ => isFalse (fun h => Ty.noConfusion h)
  | Ty.unit, Ty.other _ => isFalse (fun h => Ty.noConfusion h)
  | Ty.path _ _, Ty.unit => isFalse (fun h => Ty.noConfusion h)
  | Ty.path _ _, Ty.other _ => isFalse (fun h => Ty.noConfusion h)
  | Ty.other _, Ty.unit => isFalse (fun h => Ty.noConfusion h)
  | Ty.other _, Ty.path _ _ => isFalse (fun h => Ty.noConfusion h)

def Ty.decEqList : (a b : List Ty) → Decidable (a = b)
  | [], [] => isTrue rfl
  | x :: xs, y :: ys =>
    match Ty.decEq x y, Ty.decEqList xs ys with
    | isTrue h1, isTrue h2 => isTrue (by rw [h1, h2])
    | isFalse h1, _ => isFalse (fun hh => h1 (List.cons.inj hh).1)
    | _, isFalse h2 => isFalse (fun hh => h2 (List.cons.inj hh).2)
  | [], _ :: _ => isFalse (fun h => List.noConfusion h)
  | _ :: _, [] => isFalse (fun h => List.noConfusion h)
end

instance : DecidableEq Ty := Ty.decEq

/-- A pattern in a typed function argument (`syn::Pat`): either a plain
identifier binding or anything else (destructured / non-identifier). -/
inductive Pat where
  | ident (name : String)
  | other (tag : Nat)
deriving DecidableEq

/-- `syn::Receiver`: whether the receiver is taken by reference
(`reference.is_some()`) and whether it is mutable (`mutability.is_some()`). -/
structure Receiver where
  reference : Bool
  mutability : Bool
deriving DecidableEq

/-- `syn::FnArg`: a receiver or a typed (pattern, type) argument. -/
inductive FnArg where
  | receiver (r : Receiver)
  | typed (pat : Pat) (ty : Ty)
deriving DecidableEq

/-- `syn::Visibility`, preserved as an uninterpreted token. -/
inductive Vis where
  | pub
  | inherited
  | other (tag : Nat)
deriving DecidableEq

/-- An attribute on a method: the `#[async_wrap]` marker
(`attr.path().is_ident("async_wrap")`), a `#[doc ...]` attribute
(`attr.path().is_ident("doc")`), or anything else. -/
inductive Attr where
  | marker
  | doc (tag : Nat)
  | other (tag : Nat)
deriving DecidableEq

/-- The parts of `syn::ImplItemFn` the macro reads: attributes, visibility,
`sig.asyncness.is_some()`, `sig.ident`, `sig.inputs`, `sig.output`
(`none` for `ReturnType::Default`), and an uninterpreted body. -/
structure ImplItemFn where
  attrs : List Attr
  vis : Vis
  asyncness : Bool
  ident : String
  inputs : List FnArg
  output : Option Ty
  bodyTag : Nat
deriving DecidableEq

/-- A generic parameter of the impl block, preserved verbatim. -/
structure GenericParam where
  tag : Nat
deriving DecidableEq

/-- A `where`-clause of the impl block, preserved verbatim. -/
structure WhereClause where
  tag : Nat
deriving DecidableEq

/-- `syn::Generics`: the ordered parameter list and the optional
where-clause. -/
structure Generics where
  params : List GenericParam
  whereClause : Option WhereClause
deriving DecidableEq

/-- An item of an impl block: a method or anything else. -/
inductive ImplItem where
  | fn (m : ImplItemFn)
  | other (tag : Nat)
deriving DecidableEq

/-- The parts of `syn::ItemImpl` the macro reads. -/
structure ItemImpl where
  generics : Generics
  selfTy : Ty
  items : List ImplItem
deriving DecidableEq

/-! ## Validator (`validate_async_wrap_method`) -/

/-- `is_self_by_ref`: the argument is `&self`
(`FnArg::Receiver(r)` with `r.reference.is_some() && r.mutability.is_none()`). -/
def is_self_by_ref : FnArg → Bool
  | FnArg.receiver r => r.reference && !r.mutability
  | _ => false

/-- The violations `validate_async_wrap_method` can produce, one constructor
per `syn::Error::new_spanned(...)` site, carrying the syntax the error is
anchored at.  `noReceiver` is anchored at the whole signature. -/
inductive ValError where
  | asyncNotAllowed
  | mutReceiver (r : Receiver)
  | ownedReceiver (r : Receiver)
  | badFirstArg (a : FnArg)
  | noReceiver
deriving DecidableEq

/-- The literal message text of each violation, as written in the source. -/
def ValError.message : ValError → String
  | ValError.asyncNotAllowed => "#[async_wrap] cannot be used on async methods"
  | ValError.mutReceiver _ => "#[async_wrap] requires `&self`, not `&mut self`"
  | ValError.ownedReceiver _ => "#[async_wrap] requires `&self`, not `self`"
  | ValError.badFirstArg _ => "#[async_wrap] requires methods taking `&self`"
  | ValError.noReceiver => "#[async_wrap] requires methods taking `&self`"

/-- `validate_async_wrap_method`, mirroring the source's match arms in
order: async methods are rejected first; then the first input must be
`&self`, with dedicated errors for a mutable receiver
(`r.mutability.is_some()`), an owned receiver (`r.reference.is_none()`), a
non-receiver first argument, and an empty input list.  The
`badFirstArg (receiver r)` branch mirrors the source's `Some(arg)` catch-all
arm; it is unreachable for receivers (a non-mutable by-reference receiver is
accepted by the first arm). -/
def validate_async_wrap_method (m : ImplItemFn) : Except ValError Unit :=
  if m.asyncness then Except.error ValError.asyncNotAllowed
  else
    match m.inputs.head? with
    | some arg =>
      if is_self_by_ref arg then Except.ok ()
      else
        match arg with
        | FnArg.receiver r =>
          if r.mutability then Except.error (ValError.mutReceiver r)
          else if !r.reference then Except.error (ValError.ownedReceiver r)
          else Except.error (ValError.badFirstArg (FnArg.receiver r))
        | a => Except.error (ValError.badFirstArg a)
    | none => Except.error ValError.noReceiver

/-! ## Descriptor extraction (`extract_method_info`) -/

/-- `is_result_type`: the type is a path whose last segment's identifier is
`Result`. -/
def is_result_type : Ty → Bool
  | Ty.path segs _ => segs.getLast? == some "Result"
  | _ => false

/-- `has_async_wrap_attr`: some attribute's path is the identifier
`async_wrap`. -/
def has_async_wrap_attr (m : ImplItemFn) : Bool :=
  m.attrs.any (fun a => a == Attr.marker)

/-- `remove_async_wrap_attr`: retain every attribute whose path is not the
identifier `async_wrap`. -/
def remove_async_wrap_attr (m : ImplItemFn) : ImplItemFn :=
  { m with attrs := m.attrs.filter (fun a => !(a == Attr.marker)) }

/-- Whether an attribute is a `#[doc ...]` attribute. -/
def Attr.isDoc : Attr → Bool
  | Attr.doc _ => true
  | _ => false

/-- `struct MethodInfo` from the source. -/
structure MethodInfo where
  name : String
  visibility : Vis
  args : List (String × Ty)
  return_type : Option Ty
  is_result : Bool
  doc_attrs : List Attr
deriving DecidableEq

/-- The filter used for `MethodInfo.args`: keep a typed argument whose
pattern is a plain identifier, paired with its type; receivers and
non-identifier patterns are dropped. -/
def typedIdentArg : FnArg → Option (String × Ty)
  | FnArg.typed (Pat.ident n) ty => some (n, ty)
  | _ => none

/-- `extract_method_info`: `None` unless the first input exists and is
`&self`; otherwise collect name, visibility, the identifier-bound typed
arguments, the return type together with its `Result`-shape classification,
and the `#[doc ...]` attributes. -/
def extract_method_info (m : ImplItemFn) : Option MethodInfo :=
  match m.inputs.head? with
  | none => none
  | some first_arg =>
    if !is_self_by_ref first_arg then none
    else
      let ri : Option Ty × Bool :=
        match m.output with
        | none => (none, false)
        | some ty => (some ty, is_result_type ty)
      some
        { name := m.ident
          visibility := m.vis
          args := m.inputs.filterMap typedIdentArg
          return_type := ri.1
          is_result := ri.2
          doc_attrs := m.attrs.filter Attr.isDoc }

/-! ## Synthesis (`generate_async_method`) -/

/-- A type as it appears in a synthesized method's return position:
a source type passed through verbatim, the emitted
`::asyncwrap::AsyncWrapResult<r>` alias applied to a source type, or the
emitted `::core::result::Result<t, ::tokio::task::JoinError>`. -/
inductive STy where
  | src (t : Ty)
  | asyncWrapResult (r : Ty)
  | resultJoin (t : Ty)
deriving DecidableEq

/-- The body shape of a synthesized method, carrying the forwarded method
name and argument names:
* `spawnRemap`: `spawn_blocking(move || inner.name(args)).await`
  followed by `.map_err(AsyncWrapError::TaskFailed)?.map_err(AsyncWrapError::Inner)`;
* `spawnRaw`: `spawn_blocking(move || inner.name(args)).await` returned as is;
* `blockInPlace`: `::tokio::task::block_in_place(|| self.inner.name(args))`. -/
inductive SynthBody where
  | spawnRemap (name : String) (argNames : List String)
  | spawnRaw (name : String) (argNames : List String)
  | blockInPlace (name : String) (argNames : List String)
deriving DecidableEq

/-- A synthesized async method (`quote! { #(#doc_attrs)* #vis async fn #name
(&self, #(#arg_names: #arg_types),*) #return_type { #body } }`).  The
receiver `&self` is implicit in the shape; `ret = none` means no return type
was written. -/
structure AsyncMethod where
  doc_attrs : List Attr
  vis : Vis
  name : String
  args : List (String × Ty)
  ret : Option STy
  body : SynthBody
deriving DecidableEq

/-- `generate_async_method`.  In the `SpawnBlocking` / `is_result` branch the
source calls `info.return_type.as_ref().unwrap()`; every descriptor built by
`extract_method_info` with `is_result` set has a return type, so the `getD`
default is never taken there (lemma `extract_is_result_return_type`). -/
def generate_async_method (info : MethodInfo) (strategy : Strategy) : AsyncMethod :=
  let arg_names := info.args.map Prod.fst
  match strategy with
  | Strategy.SpawnBlocking =>
    if info.is_result then
      let inner_return := info.return_type.getD Ty.unit
      { doc_attrs := info.doc_attrs
        vis := info.visibility
        name := info.name
        args := info.args
        ret := some (STy.asyncWrapResult inner_return)
        body := SynthBody.spawnRemap info.name arg_names }
    else
      let ret_ty := info.return_type.getD Ty.unit
      { doc_attrs := info.doc_attrs
        vis := info.visibility
        name := info.name
        args := info.args
        ret := some (STy.resultJoin ret_ty)
        body := SynthBody.spawnRaw info.name arg_names }
  | Strategy.BlockInPlace =>
    { doc_attrs := info.doc_attrs
      vis := info.visibility
      name := info.name
      args := info.args
      ret := info.return_type.map STy.src
      body := SynthBody.blockInPlace info.name arg_names }

/-! ## Configuration parsing (`impl Parse for BlockingImplArgs`) -/

/-- What follows the comma in the attribute token stream, classified by how
the parser consumes it: an `<ident> = "<value>"` clause, or a token sequence
on which one of syn's own sub-parsers (`Ident`, `Token![=]`, `LitStr`)
fails. -/
inductive RestTokens where
  | kv (ident : String) (value : String)
  | notIdentEqStr (tag : Nat)
deriving DecidableEq

/-- The macro's attribute token stream, pre-tokenized into the shapes
`BlockingImplArgs::parse` distinguishes: a stream whose head fails to parse
as a `syn::Type`, a lone type, or a type followed by a comma and a rest. -/
inductive AttrTokens where
  | noType (tag : Nat)
  | typeOnly (t : Ty)
  | typeComma (t : Ty) (rest : RestTokens)
deriving DecidableEq

/-- `struct BlockingImplArgs`. -/
structure BlockingImplArgs where
  async_type : Ty
  strategy : Strategy
deriving DecidableEq

/-- A configuration-parse failure: either one of syn's own parsers failed
(type / ident / `=` / string literal), or one of the two errors this crate
constructs itself (`"expected strategy"` anchored at the identifier, or the
unknown-strategy error quoting the offending value). -/
inductive ConfigError where
  | synFailure (tag : Nat)
  | expectedStrategy (id : String)
  | unknownStrategy (value : String)
deriving DecidableEq

/-- `impl Parse for BlockingImplArgs`: parse the mandatory type; default the
strategy; if a comma follows, require the identifier `strategy`, an `=` and
a string literal whose value selects the strategy, rejecting any other
value. -/
def BlockingImplArgs.parse : AttrTokens → Except ConfigError BlockingImplArgs
  | AttrTokens.noType tag => Except.error (ConfigError.synFailure tag)
  | AttrTokens.typeOnly t =>
    Except.ok { async_type := t, strategy := default }
  | AttrTokens.typeComma t rest =>
    match rest with
    | RestTokens.notIdentEqStr tag => Except.error (ConfigError.synFailure tag)
    | RestTokens.kv id value =>
      if id != "strategy" then Except.error (ConfigError.expectedStrategy id)
      else
        match value with
        | "spawn_blocking" =>
          Except.ok { async_type := t, strategy := Strategy.SpawnBlocking }
        | "block_in_place" =>
          Except.ok { async_type := t, strategy := Strategy.BlockInPlace }
        | other => Except.error (ConfigError.unknownStrategy other)

/-! ## Orchestrator (`blocking_impl`) -/

/-- A diagnostic rendered into the emitted token stream via
`to_compile_error()`. -/
inductive Diag where
  | validation (e : ValError)
  | config (e : ConfigError)
deriving DecidableEq

/-- The companion impl block emitted by `blocking_impl`: `impl`, the generic
parameters (empty list when the source block had none), the companion type,
the propagated where-clause, and the synthesized methods in order. -/
structure CompanionImpl where
  genericParams : List GenericParam
  asyncType : Ty
  whereClause : Option WhereClause
  methods : List AsyncMethod
deriving DecidableEq

/-- One top-level piece of the emitted token stream. -/
inductive OutItem where
  | implBlock (i : ItemImpl)
  | diag (d : Diag)
  | companion (c : CompanionImpl)
deriving DecidableEq

/-- Whether an output item is an impl block (used to state that an output
contains no copy of the original block). -/
def OutItem.isImplBlock : OutItem → Bool
  | OutItem.implBlock _ => true
  | _ => false

/-- Whether an output item is a companion impl block. -/
def OutItem.isCompanion : OutItem → Bool
  | OutItem.companion _ => true
  | _ => false

/-- The per-item step of `blocking_impl`'s loop: a marked method is
validated (recording the violation on failure, otherwise extracting and
synthesizing) and then stripped of its markers; everything else passes
through unchanged.  Returns the rewritten item, the synthesized methods it
contributes (at most one) and the violations it contributes (at most
one). -/
def processItem (strategy : Strategy) (item : ImplItem) :
    ImplItem × List AsyncMethod × List ValError :=
  match item with
  | ImplItem.fn m =>
    if has_async_wrap_attr m then
      let stripped := ImplItem.fn (remove_async_wrap_attr m)
      match validate_async_wrap_method m with
      | Except.error e => (stripped, [], [e])
      | Except.ok _ =>
        match extract_method_info m with
        | some info => (stripped, [generate_async_method info strategy], [])
        | none => (stripped, [], [])
    else (item, [], [])
  | other => (other, [], [])

/-- `blocking_impl`'s loop over `input.items`, accumulating the rewritten
items, the synthesized methods and the violations in declaration order. -/
def processItems (strategy : Strategy) :
    List ImplItem → List ImplItem × List AsyncMethod × List ValError
  | [] => ([], [], [])
  | it :: rest =>
    let step := processItem strategy it
    let acc := processItems strategy rest
    (step.1 :: acc.1, step.2.1 ++ acc.2.1, step.2.2 ++ acc.2.2)

/-- The tail of `blocking_impl` after the attribute arguments parsed
successfully: run the loop; if any violations were recorded emit the
stripped block followed by each violation's `compile_error!`; otherwise emit
the stripped block followed by the companion impl, which carries the
original generic parameters, and the original where-clause only when the
generic-parameter list is non-empty (the source's `generic_params.is_empty()`
branch emits `impl #async_type { ... }` without the where-clause). -/
def blockingImplParsed (args : BlockingImplArgs) (input : ItemImpl) :
    List OutItem :=
  let step := processItems args.strategy input.items
  let stripped : ItemImpl := { input with items := step.1 }
  let async_methods := step.2.1
  let errors := step.2.2
  if !errors.isEmpty then
    OutItem.implBlock stripped :: errors.map (fun e => OutItem.diag (Diag.validation e))
  else
    let async_impl : CompanionImpl :=
      if input.generics.params.isEmpty then
        { genericParams := [], asyncType := args.async_type,
          whereClause := none, methods := async_methods }
      else
        { genericParams := input.generics.params, asyncType := args.async_type,
          whereClause := input.generics.whereClause, methods := async_methods }
    [OutItem.implBlock stripped, OutItem.companion async_impl]

/-- `blocking_impl`: `parse_macro_input!(attr as BlockingImplArgs)` returns
the parse error's `compile_error!` alone on failure (the original item
tokens are not re-emitted); on success the rest of the function runs. -/
def blocking_impl (attr : AttrTokens) (input : ItemImpl) : List OutItem :=
  match BlockingImplArgs.parse attr with
  | Except.error e => [OutItem.diag (Diag.config e)]
  | Except.ok args => blockingImplParsed args input

/-! ## Runtime contract (`asyncwrap/src/lib.rs`) and emitted-body semantics -/

/-- `tokio::task::JoinError`: the offloaded unit panicked or was cancelled.
Uninterpreted beyond that distinction. -/
inductive JoinError where
  | panicked (tag : Nat)
  | cancelled
deriving DecidableEq

/-- `enum AsyncWrapError<E>` from `asyncwrap/src/lib.rs`. -/
inductive AsyncWrapError (ε : Type) where
  | Inner (e : ε)
  | TaskFailed (j : JoinError)

/-- The `ResultType` projections from `asyncwrap/src/lib.rs`
(`impl<T, E> ResultType for Result<T, E>`), read off a syntactic type: a
path ending in `Result` with exactly two generic arguments yields its `Ok`
and `Err` types. -/
def resultTypeProj : Ty → Option (Ty × Ty)
  | Ty.path segs [okTy, errTy] =>
    if segs.getLast? == some "Result" then some (okTy, errTy) else none
  | _ => none

/-- The syntactic type `AsyncWrapError<e>`. -/
def asyncWrapErrorTy (e : Ty) : Ty :=
  Ty.path ["asyncwrap", "AsyncWrapError"] [e]

/-- The syntactic type `std::result::Result<okTy, errTy>`. -/
def stdResultTy (okTy errTy : Ty) : Ty :=
  Ty.path ["std", "result", "Result"] [okTy, errTy]

/-- The alias `AsyncWrapResult<R> =
Result<<R as ResultType>::Ok, AsyncWrapError<<R as ResultType>::Err>>`
from `asyncwrap/src/lib.rs`, expanded on a syntactic `R`. -/
def expandAsyncWrapResult (r : Ty) : Option Ty :=
  (resultTypeProj r).map (fun p => stdResultTy p.1 (asyncWrapErrorTy p.2))

/-- The join outcome of an offloaded unit of work: the value it returned,
or the `JoinError` produced when it panicked or was cancelled.  This is the
value of `spawn_blocking(move || inner.name(args)).await`. -/
def JoinOutcome (α : Type) : Type := Except JoinError α

/-- Denotation of the `spawnRemap` body on a method returning `Result<S, F>`
(Lean: `Except φ σ`), translated clause-for-clause from the emitted
expression `join.map_err(AsyncWrapError::TaskFailed)?
.map_err(AsyncWrapError::Inner)`. -/
def spawnRemapSem {σ φ : Type} (join : JoinOutcome (Except φ σ)) :
    Except (AsyncWrapError φ) σ :=
  match Except.mapError AsyncWrapError.TaskFailed join with
  | Except.error e => Except.error e
  | Except.ok inner => Except.mapError AsyncWrapError.Inner inner

/-- Denotation of the `spawnRaw` body on a method returning a plain `T`:
the emitted expression is the join outcome itself, returned unchanged. -/
def spawnRawSem {τ : Type} (join : JoinOutcome τ) : JoinOutcome τ :=
  join

/-! ## Derived classification functions

Closed forms of what `blocking_impl`'s loop does to a single item, used to
state block-level theorems. -/

/-- Whether an argument is a receiver. -/
def FnArg.isReceiver : FnArg → Bool
  | FnArg.receiver _ => true
  | _ => false

/-- The `is_result` flag computed from an optional return type, as in
`extract_method_info`'s match on `method.sig.output`. -/
def is_result_of : Option Ty → Bool
  | none => false
  | some ty => is_result_type ty

/-- What the loop leaves of one item in the original block: methods lose
their `async_wrap` markers, everything else is untouched. -/
def stripItem : ImplItem → ImplItem
  | ImplItem.fn m =>
    if has_async_wrap_attr m then ImplItem.fn (remove_async_wrap_attr m)
    else ImplItem.fn m
  | other => other

/-- An item carries no `async_wrap` marker. -/
def itemMarkerFree : ImplItem → Bool
  | ImplItem.fn m => !has_async_wrap_attr m
  | ImplItem.other _ => true

/-- The synthesized method one item contributes to the companion block, if
any: the item must be a method carrying the marker that validates and
extracts successfully. -/
def synthOf (strategy : Strategy) : ImplItem → Option AsyncMethod
  | ImplItem.fn m =>
    if has_async_wrap_attr m then
      match validate_async_wrap_method m with
      | Except.error _ => none
      | Except.ok _ =>
        (extract_method_info m).map (fun info => generate_async_method info strategy)
    else none
  | ImplItem.other _ => none

/-- The violation one item contributes, if any: the item must be a method
carrying the marker that fails validation. -/
def violationOf : ImplItem → Option ValError
  | ImplItem.fn m =>
    if has_async_wrap_attr m then
      match validate_async_wrap_method m with
      | Except.error e => some e
      | Except.ok _ => none
    else none
  | ImplItem.other _ => none

/-! ## Concrete fixtures used by witnesses and counterexamples -/

/-- `pub fn get_value(&self, n: i32) -> Result<String, MyError>` with the
marker and one doc attribute. -/
def c1m : ImplItemFn :=
  { attrs := [Attr.marker, Attr.doc 0]
    vis := Vis.pub
    asyncness := false
    ident := "get_value"
    inputs := [FnArg.receiver ⟨true, false⟩,
               FnArg.typed (Pat.ident "n") (Ty.path ["i32"] [])]
    output := some (Ty.path ["Result"] [Ty.path ["String"] [], Ty.path ["MyError"] []])
    bodyTag := 0 }

/-- `pub fn pair(&self, (a, b): (i32, i32))`: a marked method whose only
non-receiver parameter is pattern-destructured. -/
def c1mDestr : ImplItemFn :=
  { attrs := [Attr.marker]
    vis := Vis.pub
    asyncness := false
    ident := "pair"
    inputs := [FnArg.receiver ⟨true, false⟩,
               FnArg.typed (Pat.other 0) (Ty.other 1)]
    output := none
    bodyTag := 0 }

/-- A valid marked method `pub fn method(&self) -> i32` (as in the
`invalid_strategy` ui test). -/
def c2m : ImplItemFn :=
  { attrs := [Attr.marker]
    vis := Vis.pub
    asyncness := false
    ident := "method"
    inputs := [FnArg.receiver ⟨true, false⟩]
    output := some (Ty.path ["i32"] [])
    bodyTag := 0 }

/-- The impl block of the `invalid_strategy` ui test. -/
def c2input : ItemImpl :=
  { generics := ⟨[], none⟩
    selfTy := Ty.path ["BlockingClient"] []
    items := [ImplItem.fn c2m] }

/-- `#[blocking_impl(AsyncClient, strategy = "invalid")]`. -/
def c2attr : AttrTokens :=
  AttrTokens.typeComma (Ty.path ["AsyncClient"] [])
    (RestTokens.kv "strategy" "invalid")

/-- `pub fn might_fail(&self, ok: bool) -> Result<String, MyError>`. -/
def c3m : ImplItemFn :=
  { attrs := [Attr.marker]
    vis := Vis.pub
    asyncness := false
    ident := "might_fail"
    inputs := [FnArg.receiver ⟨true, false⟩,
               FnArg.typed (Pat.ident "ok") (Ty.path ["bool"] [])]
    output := some (Ty.path ["Result"] [Ty.path ["String"] [], Ty.path ["MyError"] []])
    bodyTag := 0 }

/-- `pub fn reset(&self)`: a marked method with no return type. -/
def c4m : ImplItemFn :=
  { attrs := [Attr.marker]
    vis := Vis.pub
    asyncness := false
    ident := "reset"
    inputs := [FnArg.receiver ⟨true, false⟩]
    output := none
    bodyTag := 0 }

/-- `pub fn add(&self, n: i32) -> i32` (as in the block-in-place test). -/
def c5m : ImplItemFn :=
  { attrs := [Attr.marker]
    vis := Vis.pub
    asyncness := false
    ident := "add"
    inputs := [FnArg.receiver ⟨true, false⟩,
               FnArg.typed (Pat.ident "n") (Ty.path ["i32"] [])]
    output := some (Ty.path ["i32"] [])
    bodyTag := 0 }

/-- `pub fn mut_method(&mut self) -> i32`: a marked method with a mutable
receiver (as in the `multiple_errors` ui test). -/
def c6mMut : ImplItemFn :=
  { attrs := [Attr.marker]
    vis := Vis.pub
    asyncness := false
    ident := "mut_method"
    inputs := [FnArg.receiver ⟨true, true⟩]
    output := some (Ty.path ["i32"] [])
    bodyTag := 0 }

/-- `pub async fn async_method(&self) -> i32`: a marked async method (as in
the `multiple_errors` ui test). -/
def c6mAsync : ImplItemFn :=
  { attrs := [Attr.marker]
    vis := Vis.pub
    asyncness := true
    ident := "async_method"
    inputs := [FnArg.receiver ⟨true, false⟩]
    output := some (Ty.path ["i32"] [])
    bodyTag := 0 }

/-- `pub fn get_value(&self) -> i32`: a valid marked method. -/
def c6mOk : ImplItemFn :=
  { attrs := [Attr.marker]
    vis := Vis.pub
    asyncness := false
    ident := "get_value"
    inputs := [FnArg.receiver ⟨true, false⟩]
    output := some (Ty.path ["i32"] [])
    bodyTag := 0 }

/-- A block with one valid, one `&mut self` and one async marked method. -/
def c6input : ItemImpl :=
  { generics := ⟨[], none⟩
    selfTy := Ty.path ["BlockingClient"] []
    items := [ImplItem.fn c6mOk, ImplItem.fn c6mMut, ImplItem.fn c6mAsync] }

/-- `#[blocking_impl(AsyncClient)]`. -/
def c6attr : AttrTokens := AttrTokens.typeOnly (Ty.path ["AsyncClient"] [])

/-- `pub fn bad_method() -> i32`: a marked method with no parameter list at
all (as in the `no_self` ui test). -/
def c7mNoParams : ImplItemFn :=
  { attrs := [Attr.marker]
    vis := Vis.pub
    asyncness := false
    ident := "bad_method"
    inputs := []
    output := some (Ty.path ["i32"] [])
    bodyTag := 0 }

/-- `pub fn free_fn(x: i32) -> i32`: a marked method whose first parameter
is not a receiver. -/
def c7mBadArg : ImplItemFn :=
  { attrs := [Attr.marker]
    vis := Vis.pub
    asyncness := false
    ident := "free_fn"
    inputs := [FnArg.typed (Pat.ident "x") (Ty.path ["i32"] [])]
    output := some (Ty.path ["i32"] [])
    bodyTag := 0 }

/-- A valid marked method `pub fn get(&self) -> i32`. -/
def c8m : ImplItemFn :=
  { attrs := [Attr.marker]
    vis := Vis.pub
    asyncness := false
    ident := "get"
    inputs := [FnArg.receiver ⟨true, false⟩]
    output := some (Ty.path ["i32"] [])
    bodyTag := 0 }

/-- A block with no generic parameters but with a where-clause, holding one
valid marked method. -/
def c8input : ItemImpl :=
  { generics := ⟨[], some ⟨0⟩⟩
    selfTy := Ty.path ["BlockingClient"] []
    items := [ImplItem.fn c8m] }

/-- A block with one generic parameter and a where-clause, holding one
valid marked method. -/
def c8inputGeneric : ItemImpl :=
  { generics := ⟨[⟨1⟩], some ⟨2⟩⟩
    selfTy := Ty.path ["BlockingClient"] []
    items := [ImplItem.fn c8m] }

/-- `#[blocking_impl(AsyncClient)]`. -/
def c8attr : AttrTokens := AttrTokens.typeOnly (Ty.path ["AsyncClient"] [])

/-- `pub async fn bad_method(&mut self) -> i32`: both declared async and
carrying a non-`&self` receiver. -/
def c10m : ImplItemFn :=
  { attrs := [Attr.marker]
    vis := Vis.pub
    asyncness := true
    ident := "bad_method"
    inputs := [FnArg.receiver ⟨true, true⟩]
    output := some (Ty.path ["i32"] [])
    bodyTag := 0 }

/-- The descriptor extracted from `c1m`. -/
def c1info : MethodInfo :=
  { name := "get_value"
    visibility := Vis.pub
    args := [("n", Ty.path ["i32"] [])]
    return_type := some (Ty.path ["Result"] [Ty.path ["String"] [], Ty.path ["MyError"] []])
    is_result := true
    doc_attrs := [Attr.doc 0] }

/-- The descriptor extracted from `c1mDestr`: its destructured parameter is
dropped. -/
def c1infoDestr : MethodInfo :=
  { name := "pair"
    visibility := Vis.pub
    args := []
    return_type := none
    is_result := false
    doc_attrs := [] }

/-- The descriptor extracted from `c3m`. -/
def c3info : MethodInfo :=
  { name := "might_fail"
    visibility := Vis.pub
    args := [("ok", Ty.path ["bool"] [])]
    return_type := some (Ty.path ["Result"] [Ty.path ["String"] [], Ty.path ["MyError"] []])
    is_result := true
    doc_attrs := [] }

/-- The descriptor extracted from `c4m`. -/
def c4info : MethodInfo :=
  { name := "reset"
    visibility := Vis.pub
    args := []
    return_type := none
    is_result := false
    doc_attrs := [] }

/-- The descriptor extracted from `c5m`. -/
def c5info : MethodInfo :=
  { name := "add"
    visibility := Vis.pub
    args := [("n", Ty.path ["i32"] [])]
    return_type := some (Ty.path ["i32"] [])
    is_result := false
    doc_attrs := [] }

/-! ## Shared lemmas -/

theorem validate_ok_head (m : ImplItemFn)
    (h : validate_async_wrap_method m = Except.ok ()) :
    m.asyncness = false ∧ ∃ a, m.inputs.head? = some a ∧ is_self_by_ref a = true := by
  obtain ⟨attrs, vis, asyncness, ident, inputs, output, bodyTag⟩ := m
  cases asyncness with
  | true => simp [validate_async_wrap_method] at h
  | false =>
    cases inputs with
    | nil => simp [validate_async_wrap_method] at h
    | cons a rest =>
      refine ⟨rfl, a, rfl, ?_⟩
      by_cases hs : is_self_by_ref a = true
      · exact hs
      · exfalso
        simp only [validate_async_wrap_method, Bool.false_eq_true, if_false,
          List.head?_cons, hs, if_neg] at h
        cases a with
        | receiver r =>
          split at h <;> (try split at h) <;> (try split at h) <;> simp_all
        | typed p t =>
          split at h <;> simp_all

theorem validate_ok_of (m : ImplItemFn) (a : FnArg)
    (h1 : m.asyncness = false) (h2 : m.inputs.head? = some a)
    (h3 : is_self_by_ref a = true) :
    validate_async_wrap_method m = Except.ok () := by
  simp [validate_async_wrap_method, h1, h2, h3]

theorem extract_method_info_eq (m : ImplItemFn) (a : FnArg)
    (ha : m.inputs.head? = some a) (hs : is_self_by_ref a = true) :
    extract_method_info m = some
      { name := m.ident
        visibility := m.vis
        args := m.inputs.filterMap typedIdentArg
        return_type := m.output
        is_result := is_result_of m.output
        doc_attrs := m.attrs.filter Attr.isDoc } := by
  unfold extract_method_info
  rw [ha]
  simp only [hs, Bool.not_true, Bool.false_eq_true, if_false, if_neg]
  cases m.output <;> simp [is_result_of]

theorem extract_method_info_char (m : ImplItemFn) (info : MethodInfo)
    (hv : validate_async_wrap_method m = Except.ok ())
    (he : extract_method_info m = some info) :
    info = { name := m.ident
             visibility := m.vis
             args := m.inputs.filterMap typedIdentArg
             return_type := m.output
             is_result := is_result_of m.output
             doc_attrs := m.attrs.filter Attr.isDoc } := by
  obtain ⟨-, a, ha, hs⟩ := validate_ok_head m hv
  have := extract_method_info_eq m a ha hs
  rw [he] at this
  exact Option.some.inj this

theorem processItem_fst (s : Strategy) (it : ImplItem) :
    (processItem s it).1 = stripItem it := by
  cases it with
  | fn m =>
    by_cases h : has_async_wrap_attr m = true
    · simp only [processItem, stripItem, h, if_true]
      cases hv : validate_async_wrap_method m with
      | error e => rfl
      | ok u => cases he : extract_method_info m <;> rfl
    · simp [processItem, stripItem, h]
  | other t => rfl

theorem processItem_methods (s : Strategy) (it : ImplItem) :
    (processItem s it).2.1 = (synthOf s it).toList := by
  cases it with
  | fn m =>
    by_cases h : has_async_wrap_attr m = true
    · simp only [processItem, synthOf, h, if_true]
      cases hv : validate_async_wrap_method m with
      | error e => rfl
      | ok u => cases he : extract_method_info m <;> rfl
    · simp [processItem, synthOf, h]
  | other t => rfl

theorem processItem_errors (s : Strategy) (it : ImplItem) :
    (processItem s it).2.2 = (violationOf it).toList := by
  cases it with
  | fn m =>
    by_cases h : has_async_wrap_attr m = true
    · simp only [processItem, violationOf, h, if_true]
      cases hv : validate_async_wrap_method m with
      | error e => rfl
      | ok u => cases he : extract_method_info m <;> rfl
    · simp [processItem, violationOf, h]
  | other t => rfl

theorem processItems_fst (s : Strategy) (l : List ImplItem) :
    (processItems s l).1 = l.map stripItem := by
  induction l with
  | nil => rfl
  | cons it rest ih => simp [processItems, processItem_fst, ih]

theorem processItems_methods (s : Strategy) (l : List ImplItem) :
    (processItems s l).2.1 = l.filterMap (synthOf s) := by
  induction l with
  | nil => rfl
  | cons it rest ih =>
    simp only [processItems, processItem_methods, ih, List.filterMap_cons]
    cases synthOf s it <;> simp

theorem processItems_errors (s : Strategy) (l : List ImplItem) :
    (processItems s l).2.2 = l.filterMap violationOf := by
  induction l with
  | nil => rfl
  | cons it rest ih =>
    simp only [processItems, processItem_errors, ih, List.filterMap_cons]
    cases violationOf it <;> simp

theorem remove_attr_marker_free (m : ImplItemFn) :
    has_async_wrap_attr (remove_async_wrap_attr m) = false := by
  simp only [has_async_wrap_attr, remove_async_wrap_attr]
  rw [List.any_eq_false]
  intro a ha
  have := List.mem_filter.mp ha
  simpa using this.2

theorem stripItem_marker_free (it : ImplItem) :
    itemMarkerFree (stripItem it) = true := by
  cases it with
  | fn m =>
    by_cases h : has_async_wrap_attr m = true <;>
      simp [stripItem, itemMarkerFree, h, remove_attr_marker_free]
  | other t => rfl

theorem blockingImplParsed_err_char (args : BlockingImplArgs) (input : ItemImpl)
    (h : input.items.filterMap violationOf ≠ []) :
    blockingImplParsed args input =
      OutItem.implBlock { input with items := input.items.map stripItem } ::
        (input.items.filterMap violationOf).map
          (fun e => OutItem.diag (Diag.validation e)) := by
  simp only [blockingImplParsed, processItems_fst, processItems_errors]
  simp [h]

theorem blockingImplParsed_ok_char (args : BlockingImplArgs) (input : ItemImpl)
    (h : input.items.filterMap violationOf = []) :
    blockingImplParsed args input =
      [OutItem.implBlock { input with items := input.items.map stripItem },
       OutItem.companion
         { genericParams := input.generics.params
           asyncType := args.async_type
           whereClause :=
             if input.generics.params.isEmpty then none
             else input.generics.whereClause
           methods := input.items.filterMap (synthOf args.strategy) }] := by
  simp only [blockingImplParsed, processItems_fst, processItems_errors,
    processItems_methods]
  simp only [h, List.isEmpty_nil, Bool.not_true, Bool.false_eq_true, if_false, if_neg]
  by_cases hp : input.generics.params.isEmpty = true
  · have hnil : input.generics.params = [] := by
      simpa using hp
    simp [hp, hnil]
  · simp [hp]

/-! ## Claims -/

/-- C9: parsing the configuration with an explicit
`strategy = "spawn_blocking"` clause and parsing it with the strategy clause
omitted entirely select the identical strategy: `SpawnBlocking` (the spec's
SpawnDetached), which is also the declared default. -/
theorem C9_config_round_trip (t : Ty) :
    BlockingImplArgs.parse
        (AttrTokens.typeComma t (RestTokens.kv "strategy" "spawn_blocking")) =
      BlockingImplArgs.parse (AttrTokens.typeOnly t) ∧
    BlockingImplArgs.parse (AttrTokens.typeOnly t) =
      Except.ok { async_type := t, strategy := Strategy.SpawnBlocking } ∧
    (default : Strategy) = Strategy.SpawnBlocking := by
  refine ⟨?_, rfl, rfl⟩
  rfl

/-- Witness for C9 at the companion type `AsyncClient`. -/
theorem C9_witness :
    BlockingImplArgs.parse
        (AttrTokens.typeComma (Ty.path ["AsyncClient"] [])
          (RestTokens.kv "strategy" "spawn_blocking")) =
      BlockingImplArgs.parse (AttrTokens.typeOnly (Ty.path ["AsyncClient"] [])) :=
  (C9_config_round_trip (Ty.path ["AsyncClient"] [])).1

/-- C10: the asyncness check takes precedence over every receiver-shape
check: a method declared async is rejected with the async diagnostic alone,
whatever its receiver looks like, and in the block loop such a marked method
contributes exactly that one diagnostic (and no synthesized method). -/
theorem C10_async_precedence (m : ImplItemFn) (s : Strategy)
    (h : m.asyncness = true) :
    validate_async_wrap_method m = Except.error ValError.asyncNotAllowed ∧
    (has_async_wrap_attr m = true →
      processItem s (ImplItem.fn m) =
        (ImplItem.fn (remove_async_wrap_attr m), [], [ValError.asyncNotAllowed])) := by
  have hv : validate_async_wrap_method m = Except.error ValError.asyncNotAllowed := by
    simp [validate_async_wrap_method, h]
  refine ⟨hv, fun hm => ?_⟩
  simp [processItem, hm, hv]

/-- Witness for C10 at `pub async fn bad_method(&mut self) -> i32`. -/
theorem C10_witness :
    validate_async_wrap_method c10m = Except.error ValError.asyncNotAllowed ∧
    processItem Strategy.SpawnBlocking (ImplItem.fn c10m) =
      (ImplItem.fn (remove_async_wrap_attr c10m), [], [ValError.asyncNotAllowed]) := by
  have h := C10_async_precedence c10m Strategy.SpawnBlocking rfl
  exact ⟨h.1, h.2 rfl⟩

/-- C7 counterexample: a marked method with no parameter list at all and a
marked method whose first parameter is a typed non-receiver are both
rejected — but with the SAME message text, so the four rejection cases are
not each separately worded. -/
theorem C7_counterexample :
    validate_async_wrap_method c7mNoParams = Except.error ValError.noReceiver ∧
    validate_async_wrap_method c7mBadArg =
      Except.error
        (ValError.badFirstArg (FnArg.typed (Pat.ident "x") (Ty.path ["i32"] []))) ∧
    ValError.message ValError.noReceiver =
      ValError.message
        (ValError.badFirstArg (FnArg.typed (Pat.ident "x") (Ty.path ["i32"] []))) :=
  ⟨rfl, rfl, rfl⟩

/-- C7 (amended): a non-async marked method whose first parameter is not a
read-only receiver is always rejected, and the four cases are distinguished:
`&mut self` and owned `self` each carry a dedicated message distinct from
every other case, while the no-parameter-list case and the
non-receiver-first-parameter case share one message text and differ only in
the syntax the error is anchored at. -/
theorem C7_rejection_cases (m : ImplItemFn) (h : m.asyncness = false) :
    (m.inputs.head? = none →
      validate_async_wrap_method m = Except.error ValError.noReceiver) ∧
    (∀ r : Receiver, r.mutability = true →
      m.inputs.head? = some (FnArg.receiver r) →
      validate_async_wrap_method m = Except.error (ValError.mutReceiver r)) ∧
    (∀ r : Receiver, r.mutability = false → r.reference = false →
      m.inputs.head? = some (FnArg.receiver r) →
      validate_async_wrap_method m = Except.error (ValError.ownedReceiver r)) ∧
    (∀ (p : Pat) (t : Ty), m.inputs.head? = some (FnArg.typed p t) →
      validate_async_wrap_method m =
        Except.error (ValError.badFirstArg (FnArg.typed p t))) ∧
    (∀ r q : Receiver,
      (ValError.mutReceiver r).message ≠ (ValError.ownedReceiver q).message) ∧
    (∀ (r : Receiver) (a : FnArg),
      (ValError.mutReceiver r).message ≠ (ValError.badFirstArg a).message) ∧
    (∀ (r : Receiver) (a : FnArg),
      (ValError.ownedReceiver r).message ≠ (ValError.badFirstArg a).message) ∧
    (∀ a : FnArg,
      (ValError.badFirstArg a).message = ValError.noReceiver.message) := by
  refine ⟨?_, ?_, ?_, ?_, ?_, ?_, ?_, ?_⟩
  · intro hn
    simp [validate_async_wrap_method, h, hn]
  · intro r hm hhead
    simp [validate_async_wrap_method, h, hhead, is_self_by_ref, hm]
  · intro r hm hr hhead
    simp [validate_async_wrap_method, h, hhead, is_self_by_ref, hm, hr]
  · intro p t hhead
    simp [validate_async_wrap_method, h, hhead, is_self_by_ref]
  · intro r q
    simp [ValError.message]
  · intro r a
    simp [ValError.message]
  · intro r a
    simp [ValError.message]
  · intro a
    rfl

/-- Witness for C7 at a no-parameter-list method and a mutable-receiver
method. -/
theorem C7_witness :
    validate_async_wrap_method c7mNoParams = Except.error ValError.noReceiver ∧
    ValError.message (ValError.badFirstArg (FnArg.typed (Pat.ident "x") (Ty.path ["i32"] []))) =
      ValError.message ValError.noReceiver := by
  have h := C7_rejection_cases c7mNoParams rfl
  exact ⟨h.1 rfl, h.2.2.2.2.2.2.2 (FnArg.typed (Pat.ident "x") (Ty.path ["i32"] []))⟩

/-- C2 (amended): when the block configuration is malformed or semantically
invalid (including an unknown strategy string), the expansion fails
immediately with the configuration diagnostic as its entire output: no
companion block is emitted, and the original implementation block is not
re-emitted either — `parse_macro_input!` discards the item tokens. -/
theorem C2_config_failure (attr : AttrTokens) (input : ItemImpl)
    (e : ConfigError) (h : BlockingImplArgs.parse attr = Except.error e) :
    blocking_impl attr input = [OutItem.diag (Diag.config e)] := by
  simp [blocking_impl, h]

/-- C2 counterexample: with `strategy = "invalid"` on a block holding one
valid marked method, the expansion's output is the single unknown-strategy
diagnostic; it contains no impl block at all, refuting that the original
block is still emitted with markers stripped. -/
theorem C2_counterexample :
    blocking_impl c2attr c2input =
      [OutItem.diag (Diag.config (ConfigError.unknownStrategy "invalid"))] ∧
    (blocking_impl c2attr c2input).filter OutItem.isImplBlock = [] ∧
    (blocking_impl c2attr c2input).filter OutItem.isCompanion = [] :=
  ⟨rfl, rfl, rfl⟩

/-- Witness for C2 at the `invalid_strategy` fixture. -/
theorem C2_witness :
    blocking_impl c2attr c2input =
      [OutItem.diag (Diag.config (ConfigError.unknownStrategy "invalid"))] :=
  C2_config_failure c2attr c2input (ConfigError.unknownStrategy "invalid") rfl

/-- C3: for an accepted method whose declared return type is a two-argument
`Result<S, F>` path, SpawnBlocking synthesis emits return type
`AsyncWrapResult<Result<S, F>>` — which the runtime alias of
`asyncwrap/src/lib.rs` expands to `Result<S, AsyncWrapError<F>>` — and a
body whose completion maps a panicked or cancelled unit to
`Err(TaskFailed(join_error))`, an inner `Err(f)` to `Err(Inner(f))` and an
inner `Ok(s)` to `Ok(s)`. -/
theorem C3_result_shape (m : ImplItemFn) (info : MethodInfo)
    (S F : Ty) (segs : List String)
    (hv : validate_async_wrap_method m = Except.ok ())
    (he : extract_method_info m = some info)
    (ho : m.output = some (Ty.path segs [S, F]))
    (hr : segs.getLast? = some "Result") :
    (generate_async_method info Strategy.SpawnBlocking).ret =
      some (STy.asyncWrapResult (Ty.path segs [S, F])) ∧
    expandAsyncWrapResult (Ty.path segs [S, F]) =
      some (stdResultTy S (asyncWrapErrorTy F)) ∧
    (generate_async_method info Strategy.SpawnBlocking).body =
      SynthBody.spawnRemap m.ident (info.args.map Prod.fst) ∧
    (∀ (σ φ : Type) (j : JoinError),
      spawnRemapSem (σ := σ) (φ := φ) (Except.error j) =
        Except.error (AsyncWrapError.TaskFailed j)) ∧
    (∀ (σ φ : Type) (f : φ),
      spawnRemapSem (σ := σ) (Except.ok (Except.error f)) =
        Except.error (AsyncWrapError.Inner f)) ∧
    (∀ (σ φ : Type) (v : σ),
      spawnRemapSem (φ := φ) (Except.ok (Except.ok v)) = Except.ok v) := by
  have hchar := extract_method_info_char m info hv he
  subst hchar
  have hres : is_result_of m.output = true := by
    rw [ho]
    simp [is_result_of, is_result_type, hr]
  rw [ho] at hres
  refine ⟨?_, ?_, ?_, ?_, ?_, ?_⟩
  · simp [generate_async_method, hres, ho]
  · simp [expandAsyncWrapResult, resultTypeProj, hr, stdResultTy, asyncWrapErrorTy]
  · simp [generate_async_method, hres, ho]
  · intro σ φ j
    rfl
  · intro σ φ f
    rfl
  · intro σ φ v
    rfl

/-- Witness for C3 at `pub fn might_fail(&self, ok: bool) ->
Result<String, MyError>`. -/
theorem C3_witness :
    (generate_async_method c3info Strategy.SpawnBlocking).ret =
      some (STy.asyncWrapResult
        (Ty.path ["Result"] [Ty.path ["String"] [], Ty.path ["MyError"] []])) ∧
    expandAsyncWrapResult
        (Ty.path ["Result"] [Ty.path ["String"] [], Ty.path ["MyError"] []]) =
      some (stdResultTy (Ty.path ["String"] [])
        (asyncWrapErrorTy (Ty.path ["MyError"] []))) ∧
    spawnRemapSem (σ := String) (φ := Nat) (Except.error JoinError.cancelled) =
      Except.error (AsyncWrapError.TaskFailed JoinError.cancelled) := by
  have h := C3_result_shape c3m c3info (Ty.path ["String"] [])
    (Ty.path ["MyError"] []) ["Result"] rfl rfl rfl rfl
  exact ⟨h.1, h.2.1, h.2.2.2.1 String Nat JoinError.cancelled⟩

/-- C4: for an accepted method whose declared return type is not a result
shape (a plain `T`, or absent, in which case `T` is the unit type),
SpawnBlocking synthesis emits return type
`::core::result::Result<T, JoinError>` and a body that returns the raw join
outcome — `Ok(v)` on normal completion, `Err(join_error)` on panic or
cancellation — with no inner remapping. -/
theorem C4_plain_shape (m : ImplItemFn) (info : MethodInfo)
    (hv : validate_async_wrap_method m = Except.ok ())
    (he : extract_method_info m = some info)
    (hnr : is_result_of m.output = false) :
    (generate_async_method info Strategy.SpawnBlocking).ret =
      some (STy.resultJoin (m.output.getD Ty.unit)) ∧
    (m.output = none →
      (generate_async_method info Strategy.SpawnBlocking).ret =
        some (STy.resultJoin Ty.unit)) ∧
    (generate_async_method info Strategy.SpawnBlocking).body =
      SynthBody.spawnRaw m.ident (info.args.map Prod.fst) ∧
    (∀ (τ : Type) (v : τ), spawnRawSem (Except.ok v) = Except.ok v) ∧
    (∀ (τ : Type) (j : JoinError),
      spawnRawSem (τ := τ) (Except.error j) = Except.error j) := by
  have hchar := extract_method_info_char m info hv he
  subst hchar
  refine ⟨?_, ?_, ?_, ?_, ?_⟩
  · simp [generate_async_method, hnr]
  · intro ho
    rw [ho] at hnr
    simp [generate_async_method, hnr, ho]
  · simp [generate_async_method, hnr]
  · intro τ v
    rfl
  · intro τ j
    rfl

/-- Witness for C4 at `pub fn reset(&self)` (no return type, so `T` is the
unit type). -/
theorem C4_witness :
    (generate_async_method c4info Strategy.SpawnBlocking).ret =
      some (STy.resultJoin Ty.unit) ∧
    (generate_async_method c4info Strategy.SpawnBlocking).body =
      SynthBody.spawnRaw "reset" [] ∧
    spawnRawSem (τ := Nat) (Except.error JoinError.cancelled) =
      Except.error JoinError.cancelled := by
  have h := C4_plain_shape c4m c4info rfl rfl rfl
  exact ⟨h.2.1 rfl, h.2.2.1, h.2.2.2.2 Nat JoinError.cancelled⟩

/-- C5: for an accepted method synthesized under BlockInPlace (the spec's
RunInline), the synthesized return type is the source return type itself,
unchanged — and absent when the source has none — with no error-wrapping
layer, and the body is the `::tokio::task::block_in_place` call that runs
the blocking method on the current worker while marking it blocked. -/
theorem C5_runinline (m : ImplItemFn) (info : MethodInfo)
    (hv : validate_async_wrap_method m = Except.ok ())
    (he : extract_method_info m = some info) :
    (generate_async_method info Strategy.BlockInPlace).ret =
      m.output.map STy.src ∧
    (m.output = none →
      (generate_async_method info Strategy.BlockInPlace).ret = none) ∧
    (∀ t : Ty, m.output = some t →
      (generate_async_method info Strategy.BlockInPlace).ret =
        some (STy.src t)) ∧
    (generate_async_method info Strategy.BlockInPlace).body =
      SynthBody.blockInPlace m.ident (info.args.map Prod.fst) := by
  have hchar := extract_method_info_char m info hv he
  subst hchar
  refine ⟨?_, ?_, ?_, ?_⟩
  · simp [generate_async_method]
  · intro ho
    simp [generate_async_method, ho]
  · intro t ho
    simp [generate_async_method, ho]
  · simp [generate_async_method]

/-- Witness for C5 at `pub fn add(&self, n: i32) -> i32`. -/
theorem C5_witness :
    (generate_async_method c5info Strategy.BlockInPlace).ret =
      some (STy.src (Ty.path ["i32"] [])) ∧
    (generate_async_method c5info Strategy.BlockInPlace).body =
      SynthBody.blockInPlace "add" ["n"] := by
  have h := C5_runinline c5m c5info rfl rfl
  exact ⟨h.2.2.1 (Ty.path ["i32"] []) rfl, h.2.2.2⟩

/-- C1 counterexample: `pub fn pair(&self, (a, b): (i32, i32))` is accepted
by the validator, but its destructured parameter is silently dropped: the
synthesized method has an empty parameter list while the source method has
one non-receiver parameter, refuting that the synthesized parameter list
exactly equals the source's with only the receiver excluded. -/
theorem C1_counterexample :
    validate_async_wrap_method c1mDestr = Except.ok () ∧
    extract_method_info c1mDestr = some c1infoDestr ∧
    (generate_async_method c1infoDestr Strategy.SpawnBlocking).args = [] ∧
    (c1mDestr.inputs.filter (fun a => !FnArg.isReceiver a)).length = 1 :=
  ⟨rfl, rfl, rfl, rfl⟩

/-- C1 (amended): for every method accepted by the validator and
synthesized under either strategy, the synthesized method's name and
visibility equal the source method's, and its parameter list is, in order,
the source's identifier-bound typed parameters — the receiver excluded and
destructured parameters silently dropped; block-wise, the synthesized
methods are in 1:1 order-preserving correspondence with the validated,
marked source methods. -/
theorem C1_signature_preserved :
    (∀ (m : ImplItemFn) (info : MethodInfo) (s : Strategy),
      validate_async_wrap_method m = Except.ok () →
      extract_method_info m = some info →
      (generate_async_method info s).name = m.ident ∧
      (generate_async_method info s).vis = m.vis ∧
      (generate_async_method info s).args = m.inputs.filterMap typedIdentArg) ∧
    (∀ (s : Strategy) (items : List ImplItem),
      (processItems s items).2.1 = items.filterMap (synthOf s)) := by
  constructor
  · intro m info s hv he
    have hchar := extract_method_info_char m info hv he
    subst hchar
    cases s with
    | SpawnBlocking =>
      by_cases hr : is_result_of m.output = true <;>
        simp [generate_async_method, hr]
    | BlockInPlace =>
      simp [generate_async_method]
  · intro s items
    exact processItems_methods s items

/-- Witness for C1 at `pub fn get_value(&self, n: i32) ->
Result<String, MyError>`. -/
theorem C1_witness :
    (generate_async_method c1info Strategy.SpawnBlocking).name = c1m.ident ∧
    (generate_async_method c1info Strategy.SpawnBlocking).vis = c1m.vis ∧
    (generate_async_method c1info Strategy.SpawnBlocking).args =
      c1m.inputs.filterMap typedIdentArg :=
  C1_signature_preserved.1 c1m c1info Strategy.SpawnBlocking rfl rfl

/-- C6: when at least one marked method fails validation, all violations
across all methods are accumulated, the emitted artifact is the original
block with every marker stripped followed by each violation as an
independent diagnostic in declaration order, and no companion block is
emitted. -/
theorem C6_error_path (attr : AttrTokens) (input : ItemImpl)
    (args : BlockingImplArgs)
    (hp : BlockingImplArgs.parse attr = Except.ok args)
    (h : input.items.filterMap violationOf ≠ []) :
    blocking_impl attr input =
      OutItem.implBlock { input with items := input.items.map stripItem } ::
        (input.items.filterMap violationOf).map
          (fun e => OutItem.diag (Diag.validation e)) ∧
    (∀ it ∈ input.items.map stripItem, itemMarkerFree it = true) ∧
    (blocking_impl attr input).filter OutItem.isCompanion = [] := by
  have hmain : blocking_impl attr input =
      OutItem.implBlock { input with items := input.items.map stripItem } ::
        (input.items.filterMap violationOf).map
          (fun e => OutItem.diag (Diag.validation e)) := by
    simp only [blocking_impl, hp]
    exact blockingImplParsed_err_char args input h
  refine ⟨hmain, ?_, ?_⟩
  · intro it hit
    obtain ⟨it0, -, rfl⟩ := List.mem_map.mp hit
    exact stripItem_marker_free it0
  · rw [hmain]
    simp [OutItem.isCompanion, List.filter_map, Function.comp]

/-- Witness for C6 at a block holding one valid, one `&mut self` and one
async marked method. -/
theorem C6_witness :
    blocking_impl c6attr c6input =
      OutItem.implBlock { c6input with items := c6input.items.map stripItem } ::
        (c6input.items.filterMap violationOf).map
          (fun e => OutItem.diag (Diag.validation e)) ∧
    (blocking_impl c6attr c6input).filter OutItem.isCompanion = [] := by
  have h := C6_error_path c6attr c6input
    { async_type := Ty.path ["AsyncClient"] [], strategy := Strategy.SpawnBlocking }
    rfl (by decide)
  exact ⟨h.1, h.2.2⟩

/-- C8 counterexample: a block with no generic parameters but with a
where-clause loses that where-clause on the companion block, refuting that
the companion carries the original block's where-bounds verbatim. -/
theorem C8_counterexample :
    c8input.generics.whereClause = some ⟨0⟩ ∧
    blocking_impl c8attr c8input =
      [OutItem.implBlock
         { c8input with items := [ImplItem.fn { c8m with attrs := [] }] },
       OutItem.companion
         { genericParams := []
           asyncType := Ty.path ["AsyncClient"] []
           whereClause := none
           methods :=
             [{ doc_attrs := []
                vis := Vis.pub
                name := "get"
                args := []
                ret := some (STy.resultJoin (Ty.path ["i32"] []))
                body := SynthBody.spawnRaw "get" [] }] }] :=
  ⟨rfl, rfl⟩

/-- C8 (amended): when no violations are recorded, the emitted artifact is
the original block with markers stripped followed by exactly one companion
implementation block scoped to the companion type, containing every
synthesized method in original declaration order and carrying forward the
original generic parameters; the where-clause is carried forward verbatim
when the generic-parameter list is non-empty, and dropped when it is
empty. -/
theorem C8_success_path (attr : AttrTokens) (input : ItemImpl)
    (args : BlockingImplArgs)
    (hp : BlockingImplArgs.parse attr = Except.ok args)
    (h : input.items.filterMap violationOf = []) :
    blocking_impl attr input =
      [OutItem.implBlock { input with items := input.items.map stripItem },
       OutItem.companion
         { genericParams := input.generics.params
           asyncType := args.async_type
           whereClause :=
             if input.generics.params.isEmpty then none
             else input.generics.whereClause
           methods := input.items.filterMap (synthOf args.strategy) }] := by
  simp only [blocking_impl, hp]
  exact blockingImplParsed_ok_char args input h

/-- Witness for C8 at a generic block with a where-clause: with one generic
parameter present, the where-clause is carried forward verbatim. -/
theorem C8_witness :
    blocking_impl c8attr c8inputGeneric =
      [OutItem.implBlock
         { c8inputGeneric with items := c8inputGeneric.items.map stripItem },
       OutItem.companion
         { genericParams := c8inputGeneric.generics.params
           asyncType := Ty.path ["AsyncClient"] []
           whereClause :=
             if c8inputGeneric.generics.params.isEmpty then none
             else c8inputGeneric.generics.whereClause
           methods :=
             c8inputGeneric.items.filterMap (synthOf Strategy.SpawnBlocking) }] :=
  C8_success_path c8attr c8inputGeneric
    { async_type := Ty.path ["AsyncClient"] [], strategy := Strategy.SpawnBlocking }
    rfl (by decide)

end Asyncwrap
